import Mathlib

/-!
Verification development for the browser text-to-speech reader/recorder
component (single Vue component, `src/App.vue`; the most complete revision).

The component's script is shallowly embedded below:

* reactive state (`text`, `voices`, the two speaker voice selections,
  `errorMessage`, `currentLineIndex`) becomes the record `AppState`;
* the host environment (the synthesis voice list and the user-agent string)
  becomes the record `Env`;
* `populateVoiceList`, `readAloud` and `speak` become pure functions on
  `AppState`; the host interactions they perform (utterance submissions,
  capture requests, recorder stop, file download, indicator updates) are
  recorded in an event trace of type `List Ev`;
* the asynchronous per-utterance outcome is an oracle `ℕ → Option String`
  giving, for the i-th submitted utterance, `none` when the synthesis
  capability signals only normal completion and `some e` when it also fires
  an utterance error with error value `e`.  (Each awaited utterance promise
  is assumed to settle, matching the code's await structure.)
* the WAV encoder inside `startWavRecorder.stop` becomes `stopWavBytes`,
  with 32-bit float samples modelled as exact rationals (every operation the
  code performs on them - clamping, scaling by 2-complement bounds,
  truncation to integer - is exact on the values of interest).

JavaScript string primitives used by the component (`split`, `trim`,
`startsWith`, `includes`, `toLowerCase`, `replace` of a literal-prefix
pattern) are re-implemented structurally on `List Char` so that every
definition evaluates by kernel reduction.
-/

namespace TTS

/-! ## JavaScript string primitives -/

/-- Models `a.startsWith(b)` on character lists. -/
def charsStartWith : List Char → List Char → Bool
  | _, [] => true
  | [], _ :: _ => false
  | a :: as, b :: bs => decide (a = b) && charsStartWith as bs

/-- Models `String.prototype.startsWith`. -/
def jsStartsWith (s p : String) : Bool := charsStartWith s.data p.data

/-- Models `String.prototype.includes` (substring containment) on lists. -/
def charsContain (l pat : List Char) : Bool :=
  charsStartWith l pat ||
    match l with
    | [] => false
    | _ :: t => charsContain t pat

/-- Models `s.includes(pat)`. -/
def strIncludes (s pat : String) : Bool := charsContain s.data pat.data

/-- Models `String.prototype.toLowerCase` (ASCII, which is all the code
compares against). -/
def lowerStr (s : String) : String := String.mk (s.data.map Char.toLower)

/-- Models `text.split('\n')` on the underlying character list:
split into segments at every newline character. -/
def splitNlChars : List Char → List (List Char)
  | [] => [[]]
  | c :: rest =>
    match splitNlChars rest with
    | [] => [[]]
    | cur :: done =>
      if c = '\n' then [] :: cur :: done else (c :: cur) :: done

/-- Models `text.split('\n').filter(l => l.trim() !== '')`: a line survives
exactly when it has a non-whitespace character. -/
def splitLines (s : String) : List String :=
  ((splitNlChars s.data).map String.mk).filter
    (fun l => !(l.data.all Char.isWhitespace))

/-- Models `line.replace(/^Speaker N:\s*/, '')`: when `line` starts with the
literal tag, drop the tag and any immediately following whitespace. -/
def stripTag (p line : String) : String :=
  if jsStartsWith line p then
    String.mk ((line.data.drop p.data.length).dropWhile Char.isWhitespace)
  else line

/-! ## Data model -/

/-- A host `SpeechSynthesisVoice`: the fields the component reads. -/
structure Voice where
  voiceURI : String
  name : String
  lang : String
deriving DecidableEq

/-- The component's reactive state.  `synthSpeaking` mirrors the host's
`synth.speaking` flag read at dispatch entry. -/
structure AppState where
  text : String
  voices : List Voice
  speaker1Lang : String
  speaker2Lang : String
  speaker1VoiceURI : Option String
  speaker2VoiceURI : Option String
  errorMessage : String
  currentLineIndex : Option Nat
  synthSpeaking : Bool
deriving DecidableEq

/-- The host environment read by `populateVoiceList`:
`synth.getVoices()` and `navigator.userAgent`. -/
structure Env where
  availableVoices : List Voice
  userAgent : String
deriving DecidableEq

/-! ## User-facing status strings (verbatim from the source) -/

def missingInputMsg : String := "请输入文本并选择语音。"

def unsupportedMsg : String := "您的浏览器不支持语音合成，或语音列表加载失败。"

def noVoiceReadMsg : String := "未找到合适的语音，请从下拉列表中选择一个。"

def noVoiceSpeakMsg : String := "未找到合适的语音，请重新选择。"

def sharePromptMsg : String := "请在弹窗中选择“此标签页”并勾选共享音频，然后点击共享。"

def captureFailMsg : String := "获取标签页音频失败或已取消共享。"

def recordingMsg : String := "正在朗读并录音，请稍候…"

def downloadedMsg : String := "WAV 文件已下载。"

def speakErrMsg : String := "朗读出错"

/-- The template-literal error text set by `readAloud`'s `onerror` handler. -/
def synthErrorMsg (e : String) : String := "语音生成时发生错误: " ++ e

/-! ## Voice catalog builder (`populateVoiceList`) -/

/-- Chrome-branch filter: Google voices with zh (not zh-HK) / ja / en. -/
def chromeKeep (v : Voice) : Bool :=
  strIncludes (lowerStr v.name) "google" &&
    ((jsStartsWith v.lang "zh" && !(decide (v.lang = "zh-HK"))) ||
      jsStartsWith v.lang "ja" ||
      jsStartsWith v.lang "en")

/-- Edge-branch filter: Microsoft voices with zh (not zh-HK) / ja / one of
the five listed English locales. -/
def edgeKeep (v : Voice) : Bool :=
  strIncludes (lowerStr v.name) "microsoft" &&
    ((jsStartsWith v.lang "zh" && !(decide (v.lang = "zh-HK"))) ||
      jsStartsWith v.lang "ja" ||
      (decide (v.lang = "en-US") || decide (v.lang = "en-GB") ||
        decide (v.lang = "en-AU") || decide (v.lang = "en-CA") ||
        decide (v.lang = "en-NZ")))

/-- Generic-branch filter: no vendor-name check, same language rule. -/
def genericKeep (v : Voice) : Bool :=
  (jsStartsWith v.lang "zh" && !(decide (v.lang = "zh-HK"))) ||
    jsStartsWith v.lang "ja" ||
    jsStartsWith v.lang "en"

/-- The `langOrder` rank used by the Edge-branch sort comparator. -/
def langOrder (lang : String) : ℕ :=
  if jsStartsWith lang "zh" then 0
  else if lang = "en-US" then 1
  else if lang = "en-AU" then 2
  else if lang = "en-CA" then 3
  else if lang = "en-NZ" then 4
  else if lang = "en-GB" then 5
  else if jsStartsWith lang "en" then 6
  else if jsStartsWith lang "ja" then 7
  else 8

/-- Models the JavaScript `a || b` chaining of the voice-pick expressions:
`undefined` and the empty string both fall through to the alternative. -/
def jsFalsyOr (a b : Option String) : Option String :=
  match a with
  | some s => if s = "" then b else some s
  | none => b

/-- Speaker-1 default: a voice whose lowercased name contains "emma", else
the first en voice, else the catalog head. -/
def emmaPick (vs : List Voice) : Option String :=
  jsFalsyOr ((vs.find? (fun v => strIncludes (lowerStr v.name) "emma")).map Voice.voiceURI)
    (jsFalsyOr ((vs.find? (fun v => jsStartsWith v.lang "en")).map Voice.voiceURI)
      (vs.head?.map Voice.voiceURI))

/-- Speaker-2 default on Chrome / generic: `zh-TW`, else zh, else head. -/
def zhTWPick (vs : List Voice) : Option String :=
  jsFalsyOr ((vs.find? (fun v => decide (v.lang = "zh-TW"))).map Voice.voiceURI)
    (jsFalsyOr ((vs.find? (fun v => jsStartsWith v.lang "zh")).map Voice.voiceURI)
      (vs.head?.map Voice.voiceURI))

/-- Speaker-2 default on Edge: name contains "yaoyao", else zh, else head. -/
def yaoyaoPick (vs : List Voice) : Option String :=
  jsFalsyOr ((vs.find? (fun v => strIncludes (lowerStr v.name) "yaoyao")).map Voice.voiceURI)
    (jsFalsyOr ((vs.find? (fun v => jsStartsWith v.lang "zh")).map Voice.voiceURI)
      (vs.head?.map Voice.voiceURI))

/-- The Edge-branch catalog: filter then `Array.prototype.sort` with
comparator `langOrder(a.lang) - langOrder(b.lang)`.  ES2019 requires
`sort` to be stable, so it is modelled by the (stable) insertion sort. -/
def edgeCatalog (l : List Voice) : List Voice :=
  List.insertionSort (fun a b => langOrder a.lang ≤ langOrder b.lang) (l.filter edgeKeep)

/-- Models `populateVoiceList`.  The `watch` handlers of the component are
separate event handlers and are not part of this function, exactly as in
the source. -/
def populateVoiceList (env : Env) (st : AppState) : AppState :=
  if st.voices.length > 0 then st
  else
    let availableVoices := env.availableVoices
    let ua := lowerStr env.userAgent
    let isEdge := strIncludes ua "edg"
    let isChrome := !isEdge && strIncludes ua "chrome"
    if availableVoices.length > 0 then
      if isChrome then
        let vs := availableVoices.filter chromeKeep
        { st with voices := vs,
                  speaker1VoiceURI := emmaPick vs,
                  speaker2VoiceURI := zhTWPick vs }
      else if isEdge then
        let vs := edgeCatalog availableVoices
        { st with voices := vs,
                  speaker1VoiceURI := emmaPick vs,
                  speaker2VoiceURI := yaoyaoPick vs }
      else
        let vs := availableVoices.filter genericKeep
        { st with voices := vs,
                  speaker1VoiceURI := emmaPick vs,
                  speaker2VoiceURI := zhTWPick vs }
    else
      { st with errorMessage := unsupportedMsg }

/-! ## Dispatch (`readAloud` and `speak`) -/

/-- Observable host interactions performed by a dispatch, in order. -/
inductive Ev where
  | cancelSynth : Ev
  | setLine : ℕ → Ev
  | utter : String → String → Ev
  | reportError : String → Ev
  | clearLine : Ev
  | requestCapture : Ev
  | stopRecorder : Ev
  | download : String → Ev
deriving DecidableEq

/-- `synth.cancel()` is called exactly when `synth.speaking` was set. -/
def cancelEvs (b : Bool) : List Ev := if b then [Ev.cancelSynth] else []

/-- Events fired by an utterance's error handler in `readAloud`. -/
def errEvs : Option String → List Ev
  | none => []
  | some e => [Ev.reportError (synthErrorMsg e)]

/-- The per-line speaker resolution shared verbatim by `readAloud` and
`speak`: a "Speaker 1:"/"Speaker 2:" tag selects that slot's voice and is
stripped; any other line uses slot 1's voice with the text verbatim.
The voice lookup is `voices.find(v => v.voiceURI === slotURI)`. -/
def lineVoiceAndText (voices : List Voice) (u1 u2 : Option String) (line : String) :
    Option Voice × String :=
  if jsStartsWith line "Speaker 1:" then
    (voices.find? (fun v => decide (u1 = some v.voiceURI)), stripTag "Speaker 1:" line)
  else if jsStartsWith line "Speaker 2:" then
    (voices.find? (fun v => decide (u2 = some v.voiceURI)), stripTag "Speaker 2:" line)
  else
    (voices.find? (fun v => decide (u1 = some v.voiceURI)), line)

/-- The `readAloud` for-loop.  On an unresolved voice it sets the error
text, clears the indicator and returns; otherwise it sets the indicator,
submits the utterance, lets the error handler record any utterance error,
and continues when the utterance's `onend` resolves the awaited promise. -/
def readAloudGo (oc : ℕ → Option String) :
    AppState → List String → ℕ → AppState × List Ev
  | st, [], _ => ({ st with currentLineIndex := none }, [Ev.clearLine])
  | st, line :: rest, i =>
    match lineVoiceAndText st.voices st.speaker1VoiceURI st.speaker2VoiceURI line with
    | (none, _) =>
      ({ st with errorMessage := noVoiceReadMsg, currentLineIndex := none },
        [Ev.reportError noVoiceReadMsg, Ev.clearLine])
    | (some v, utterText) =>
      let st1 := { st with currentLineIndex := some i }
      let st2 :=
        match oc i with
        | some e => { st1 with errorMessage := synthErrorMsg e }
        | none => st1
      let next := readAloudGo oc st2 rest (i + 1)
      (next.1, Ev.setLine i :: Ev.utter utterText v.voiceURI :: (errEvs (oc i) ++ next.2))

/-- Models `readAloud` (speak-only dispatch). -/
def readAloud (st : AppState) (oc : ℕ → Option String) : AppState × List Ev :=
  let pre := cancelEvs st.synthSpeaking
  if st.text ≠ "" ∧ st.voices.length > 0 then
    let r := readAloudGo oc { st with errorMessage := "" } (splitLines st.text) 0
    (r.1, pre ++ r.2)
  else
    ({ st with errorMessage := missingInputMsg }, pre)

/-- Overall outcome of a `speak` call. -/
inductive SpeakResult where
  | missingInput
  | captureDenied
  | noVoice
  | aborted
  | completed
deriving DecidableEq

/-- How the `speak` for-loop ended: normally, by the unresolved-voice
`return`, or by an utterance `onerror` rejecting the awaited promise
(which rejects the whole async function). -/
inductive LoopExit where
  | done
  | noVoice
  | rejected
deriving DecidableEq

/-- The `speak` for-loop.  Unlike `readAloud` it never touches
`currentLineIndex`, and its per-line promise rejects on `onerror`. -/
def speakLoop (oc : ℕ → Option String) :
    AppState → List String → ℕ → AppState × List Ev × LoopExit
  | st, [], _ => (st, [], LoopExit.done)
  | st, line :: rest, i =>
    match lineVoiceAndText st.voices st.speaker1VoiceURI st.speaker2VoiceURI line with
    | (none, _) => ({ st with errorMessage := noVoiceSpeakMsg }, [], LoopExit.noVoice)
    | (some v, utterText) =>
      match oc i with
      | some _ =>
        ({ st with errorMessage := speakErrMsg },
          ([Ev.utter utterText v.voiceURI, Ev.reportError speakErrMsg], LoopExit.rejected))
      | none =>
        let next := speakLoop oc st rest (i + 1)
        (next.1, (Ev.utter utterText v.voiceURI :: next.2.1, next.2.2))

/-- Models `speak` (record-and-download dispatch).  `grant` is the outcome
of the awaited `startWavRecorder()` permission flow: `false` rejects
(user declined / request errored).  On loop completion the recorder is
stopped (which disconnects the capture graph and encodes the WAV bytes)
and the download is triggered. -/
def speak (st : AppState) (grant : Bool) (oc : ℕ → Option String) :
    AppState × List Ev × SpeakResult :=
  let pre := cancelEvs st.synthSpeaking
  if st.text = "" ∨ st.voices.length = 0 then
    ({ st with errorMessage := missingInputMsg }, (pre, SpeakResult.missingInput))
  else
    let stPrompt := { st with errorMessage := sharePromptMsg }
    if grant then
      let st1 := { stPrompt with errorMessage := recordingMsg }
      let r := speakLoop oc st1 (splitLines st.text) 0
      match r.2.2 with
      | LoopExit.done =>
        ({ r.1 with errorMessage := downloadedMsg },
          (pre ++ Ev.requestCapture :: (r.2.1 ++ [Ev.stopRecorder, Ev.download "tts-audio.wav"]),
            SpeakResult.completed))
      | LoopExit.noVoice =>
        (r.1, (pre ++ Ev.requestCapture :: r.2.1, SpeakResult.noVoice))
      | LoopExit.rejected =>
        (r.1, (pre ++ Ev.requestCapture :: r.2.1, SpeakResult.aborted))
    else
      ({ stPrompt with errorMessage := captureFailMsg },
        (pre ++ [Ev.requestCapture], SpeakResult.captureDenied))

/-! ## Event-trace observations -/

/-- Is this event an utterance submission (`synth.speak`)? -/
def isUtter : Ev → Bool
  | Ev.utter _ _ => true
  | _ => false

/-- Is this event the capture request (`getDisplayMedia`)? -/
def isCaptureReq : Ev → Bool
  | Ev.requestCapture => true
  | _ => false

/-- True for every event except stopping the recorder and downloading. -/
def evNotFinalize : Ev → Bool
  | Ev.stopRecorder => false
  | Ev.download _ => false
  | _ => true

/-- Number of utterances submitted to the synthesis capability. -/
def utterCount (l : List Ev) : ℕ := (l.filter isUtter).length

/-! ## Waveform encoder (`startWavRecorder`'s `stop`)

Samples are exact rationals; buffers are byte lists (`List ℕ`, every entry
below 256). -/

/-- ECMAScript ToInteger: truncation toward zero, written with Euclidean
division on the reduced numerator/denominator so it evaluates by kernel
reduction. -/
def ratTrunc (q : ℚ) : ℤ :=
  if q.num < 0 then -((-q.num) / (q.den : ℤ)) else q.num / (q.den : ℤ)

/-- Models `Math.max(-1, Math.min(1, x))`. -/
def clampSample (q : ℚ) : ℚ := max (-1) (min 1 q)

/-- Models `s < 0 ? s * 0x8000 : s * 0x7FFF` on the clamped sample. -/
def scaleSample (s : ℚ) : ℚ := if s < 0 then s * 32768 else s * 32767

/-- The signed 16-bit value produced for one float sample: clamp, scale,
then convert to integer as `DataView.setInt16` does. -/
def sampleToPcm16 (q : ℚ) : ℤ := ratTrunc (scaleSample (clampSample q))

/-- The 16-bit pattern `setInt16` stores (the value modulo 2^16). -/
def int16Store (v : ℤ) : ℕ := (v % 65536).toNat

/-- Reading a stored 16-bit pattern back as a signed integer. -/
def int16OfStore (n : ℕ) : ℤ := if n < 32768 then (n : ℤ) else (n : ℤ) - 65536

/-- Little-endian bytes written by `setUint16` (and `setInt16`). -/
def u16le (n : ℕ) : List ℕ := [n % 256, n / 256 % 256]

/-- Little-endian bytes written by `setUint32` (wraps modulo 2^32 as the
JavaScript conversion does). -/
def u32le (n : ℕ) : List ℕ :=
  [n % 256, n / 256 % 256, n / 65536 % 256, n / 16777216 % 256]

/-- Bytes of an ASCII tag written by the header's char-code writer `w`. -/
def strBytes (s : String) : List ℕ := s.data.map Char.toNat

/-- The two little-endian PCM16 bytes of one sample. -/
def sampleBytes (q : ℚ) : List ℕ := u16le (int16Store (sampleToPcm16 q))

/-- The PCM16 payload: every block's samples in push order. -/
def pcm16Data (blocks : List (List ℚ)) : List ℕ :=
  blocks.flatMap (fun b => b.flatMap sampleBytes)

/-- Total number of samples over all pushed blocks. -/
def totalSamples (blocks : List (List ℚ)) : ℕ := (blocks.map List.length).sum

/-- The 44-byte RIFF/WAVE header exactly as `stop` writes it. -/
def wavHeader (dataLen sampleRate : ℕ) : List ℕ :=
  strBytes "RIFF" ++ u32le (36 + dataLen) ++ strBytes "WAVE" ++ strBytes "fmt " ++
    u32le 16 ++ u16le 1 ++ u16le 1 ++ u32le sampleRate ++ u32le (sampleRate * 2) ++
    u16le 2 ++ u16le 16 ++ strBytes "data" ++ u32le dataLen

/-- The byte content of the `Blob` returned by the recorder's `stop`:
header followed by the PCM16 payload. -/
def stopWavBytes (blocks : List (List ℚ)) (sampleRate : ℕ) : List ℕ :=
  wavHeader (pcm16Data blocks).length sampleRate ++ pcm16Data blocks

/-- Little-endian value of a byte list. -/
def leVal : List ℕ → ℕ
  | [] => 0
  | b :: bs => b + 256 * leVal bs

/-- The 16-bit little-endian field at byte offset `off`. -/
def readU16 (bs : List ℕ) (off : ℕ) : ℕ := leVal ((bs.drop off).take 2)

/-- The 32-bit little-endian field at byte offset `off`. -/
def readU32 (bs : List ℕ) (off : ℕ) : ℕ := leVal ((bs.drop off).take 4)

/-! ## Statement-side definitions

These two definitions phrase the behaviour the claims predict, to be
compared with the embedded implementation. -/

/-- The events claim C1 predicts for dispatching one resolvable line:
indicator set to the line's index, then the utterance submission, then any
error report. -/
def plannedLine (voices : List Voice) (u1 u2 : Option String)
    (oc : ℕ → Option String) (i : ℕ) (line : String) : List Ev :=
  match lineVoiceAndText voices u1 u2 line with
  | (some v, t) => Ev.setLine i :: Ev.utter t v.voiceURI :: errEvs (oc i)
  | (none, _) => []

/-- The full trace claim C1 predicts: every line's events in original
order, then the indicator cleared. -/
def plannedGo (voices : List Voice) (u1 u2 : Option String)
    (oc : ℕ → Option String) : List String → ℕ → List Ev
  | [], _ => [Ev.clearLine]
  | line :: rest, i =>
    plannedLine voices u1 u2 oc i line ++ plannedGo voices u1 u2 oc rest (i + 1)

/-- Stable sorting by a ℕ-valued key, phrased as claim C7 does: the rank-0
elements in original order, then the rank-1 elements, and so on. -/
def keyBuckets (k : Voice → ℕ) (rs : List ℕ) (l : List Voice) : List Voice :=
  (rs.map (fun rk => l.filter (fun v => decide (k v = rk)))).flatten

/-! ## Lemmas about the `readAloud` loop -/

lemma readAloudGo_clears (oc : ℕ → Option String) :
    ∀ (lines : List String) (i : ℕ) (st : AppState),
      (readAloudGo oc st lines i).1.currentLineIndex = none := by
  intro lines
  induction lines with
  | nil => intro i st; rfl
  | cons line rest ih =>
    intro i st
    simp only [readAloudGo]
    split
    · rfl
    · exact ih (i + 1) _

lemma readAloudGo_trace (oc : ℕ → Option String) (V : List Voice) (u1 u2 : Option String) :
    ∀ (lines : List String) (i : ℕ) (st : AppState),
      st.voices = V → st.speaker1VoiceURI = u1 → st.speaker2VoiceURI = u2 →
      (∀ l ∈ lines, ((lineVoiceAndText V u1 u2 l).1).isSome) →
      (readAloudGo oc st lines i).2 = plannedGo V u1 u2 oc lines i := by
  intro lines
  induction lines with
  | nil => intro i st _ _ _ _; rfl
  | cons line rest ih =>
    intro i st h1 h2 h3 hres
    have hhead := hres line (List.mem_cons_self line rest)
    have htail : ∀ l ∈ rest, ((lineVoiceAndText V u1 u2 l).1).isSome :=
      fun l hl => hres l (List.mem_cons_of_mem line hl)
    subst h1; subst h2; subst h3
    rcases hlv : lineVoiceAndText st.voices st.speaker1VoiceURI st.speaker2VoiceURI line with
      ⟨ov, t⟩
    cases ov with
    | none => rw [hlv] at hhead; simp at hhead
    | some v =>
      simp only [readAloudGo, plannedGo, plannedLine, hlv]
      cases hoc : oc i with
      | none =>
        simp only [hoc, errEvs, List.nil_append, List.cons_append]
        exact congrArg (fun X => Ev.setLine i :: Ev.utter t v.voiceURI :: X)
          (ih (i + 1) _ rfl rfl rfl htail)
      | some e =>
        simp only [hoc, errEvs, List.cons_append, List.nil_append, List.singleton_append]
        exact congrArg
          (fun X => Ev.setLine i :: Ev.utter t v.voiceURI :: Ev.reportError (synthErrorMsg e) :: X)
          (ih (i + 1) _ rfl rfl rfl htail)

lemma splitLines_empty : splitLines "" = [] := rfl

lemma utterCount_nil : utterCount [] = 0 := rfl

lemma utterCount_append (a b : List Ev) :
    utterCount (a ++ b) = utterCount a + utterCount b := by
  simp [utterCount, List.filter_append]

lemma utterCount_cancelEvs (b : Bool) : utterCount (cancelEvs b) = 0 := by
  cases b <;> rfl

lemma utterCount_errEvs (o : Option String) : utterCount (errEvs o) = 0 := by
  cases o <;> rfl

lemma utterCount_plannedGo (V : List Voice) (u1 u2 : Option String) (oc : ℕ → Option String) :
    ∀ (lines : List String) (i : ℕ),
      (∀ l ∈ lines, ((lineVoiceAndText V u1 u2 l).1).isSome) →
      utterCount (plannedGo V u1 u2 oc lines i) = lines.length := by
  intro lines
  induction lines with
  | nil => intro i _; rfl
  | cons line rest ih =>
    intro i hres
    have hhead := hres line (List.mem_cons_self line rest)
    have htail : ∀ l ∈ rest, ((lineVoiceAndText V u1 u2 l).1).isSome :=
      fun l hl => hres l (List.mem_cons_of_mem line hl)
    rcases hlv : lineVoiceAndText V u1 u2 line with ⟨ov, t⟩
    cases ov with
    | none => rw [hlv] at hhead; simp at hhead
    | some v =>
      simp only [plannedGo, plannedLine, hlv, utterCount_append]
      rw [ih (i + 1) htail]
      have : utterCount (Ev.setLine i :: Ev.utter t v.voiceURI :: errEvs (oc i)) = 1 := by
        simp [utterCount, List.filter_cons, isUtter, utterCount_errEvs]
        cases hoc : oc i <;> simp [errEvs, isUtter]
      rw [this]
      simp [List.length_cons]
      omega

lemma reportError_mem_plannedGo (V : List Voice) (u1 u2 : Option String)
    (oc : ℕ → Option String) (e : String) :
    ∀ (lines : List String) (k i : ℕ),
      (∀ l ∈ lines, ((lineVoiceAndText V u1 u2 l).1).isSome) →
      k < lines.length → oc (i + k) = some e →
      Ev.reportError (synthErrorMsg e) ∈ plannedGo V u1 u2 oc lines i := by
  intro lines
  induction lines with
  | nil => intro k i _ hk _; simp at hk
  | cons line rest ih =>
    intro k i hres hk he
    have hhead := hres line (List.mem_cons_self line rest)
    have htail : ∀ l ∈ rest, ((lineVoiceAndText V u1 u2 l).1).isSome :=
      fun l hl => hres l (List.mem_cons_of_mem line hl)
    rcases hlv : lineVoiceAndText V u1 u2 line with ⟨ov, t⟩
    cases ov with
    | none => rw [hlv] at hhead; simp at hhead
    | some v =>
      simp only [plannedGo, plannedLine, hlv]
      cases k with
      | zero =>
        rw [Nat.add_zero] at he
        simp [he, errEvs]
      | succ k' =>
        have he' : oc ((i + 1) + k') = some e := by
          rw [show (i + 1) + k' = i + (k' + 1) from by omega]; exact he
        have hk' : k' < rest.length := by simpa using Nat.lt_of_succ_lt_succ hk
        have := ih k' (i + 1) htail hk' he'
        simp [this]

/-! ## Claim theorems: the speak-only dispatch -/

/-- Claim C1: for every text with at least one non-blank line, a non-empty
catalog, and every line's speaker voice resolvable, `readAloud` produces
exactly the per-line trace: for each non-blank line in original order, the
current-line indicator is set to the line's index and the line's single
utterance is submitted; after the last line the indicator is cleared, and
the final state's indicator is `none`. -/
theorem claim1_readAloud_per_line (st : AppState) (oc : ℕ → Option String)
    (hplan : splitLines st.text ≠ []) (hv : st.voices ≠ [])
    (hres : ∀ l ∈ splitLines st.text,
      ((lineVoiceAndText st.voices st.speaker1VoiceURI st.speaker2VoiceURI l).1).isSome) :
    (readAloud st oc).2 =
      cancelEvs st.synthSpeaking ++
        plannedGo st.voices st.speaker1VoiceURI st.speaker2VoiceURI oc (splitLines st.text) 0 ∧
    (readAloud st oc).1.currentLineIndex = none := by
  have htext : st.text ≠ "" := by
    intro h
    exact hplan (by rw [h]; rfl)
  have hcond : st.text ≠ "" ∧ st.voices.length > 0 :=
    ⟨htext, List.length_pos.mpr hv⟩
  constructor
  · simp only [readAloud, if_pos hcond]
    exact congrArg (fun X => cancelEvs st.synthSpeaking ++ X)
      (readAloudGo_trace oc st.voices st.speaker1VoiceURI st.speaker2VoiceURI
        (splitLines st.text) 0 _ rfl rfl rfl hres)
  · simp only [readAloud, if_pos hcond]
    exact readAloudGo_clears oc (splitLines st.text) 0 _

/-- Concrete witness input for claim C1: two tagged lines, one plain line,
a blank line, two catalog voices. -/
def wSt : AppState :=
  { text := "Speaker 1: Hello\nSpeaker 2: 你好\n\nplain"
    voices := [⟨"u1", "Google UK English Emma", "en-GB"⟩, ⟨"u2", "Google 國語", "zh-TW"⟩]
    speaker1Lang := "en", speaker2Lang := "zh"
    speaker1VoiceURI := some "u1", speaker2VoiceURI := some "u2"
    errorMessage := "", currentLineIndex := none, synthSpeaking := false }

theorem claim1_witness :
    splitLines wSt.text ≠ [] ∧ wSt.voices ≠ [] ∧
    (∀ l ∈ splitLines wSt.text,
      ((lineVoiceAndText wSt.voices wSt.speaker1VoiceURI wSt.speaker2VoiceURI l).1).isSome) ∧
    ((readAloud wSt (fun _ => none)).2 =
      cancelEvs wSt.synthSpeaking ++
        plannedGo wSt.voices wSt.speaker1VoiceURI wSt.speaker2VoiceURI (fun _ => none)
          (splitLines wSt.text) 0 ∧
      (readAloud wSt (fun _ => none)).1.currentLineIndex = none) :=
  ⟨by decide, by decide, by decide,
    claim1_readAloud_per_line wSt (fun _ => none) (by decide) (by decide) (by decide)⟩

/-- Claim C3: in speak-only dispatch, an utterance-level error for some line
is recorded (the error text appears in the trace) and the loop still
submits one utterance for every non-blank line, so it is never aborted by
an utterance error. -/
theorem claim3_utterance_error_nonfatal (st : AppState) (oc : ℕ → Option String)
    (k : ℕ) (e : String) (hv : st.voices ≠ [])
    (hres : ∀ l ∈ splitLines st.text,
      ((lineVoiceAndText st.voices st.speaker1VoiceURI st.speaker2VoiceURI l).1).isSome)
    (hk : k < (splitLines st.text).length) (he : oc k = some e) :
    Ev.reportError (synthErrorMsg e) ∈ (readAloud st oc).2 ∧
    utterCount (readAloud st oc).2 = (splitLines st.text).length := by
  have hplan : splitLines st.text ≠ [] := by
    intro h; rw [h] at hk; simp at hk
  have htext : st.text ≠ "" := by
    intro h; exact hplan (by rw [h]; rfl)
  have hcond : st.text ≠ "" ∧ st.voices.length > 0 :=
    ⟨htext, List.length_pos.mpr hv⟩
  have htr : (readAloud st oc).2 =
      cancelEvs st.synthSpeaking ++
        plannedGo st.voices st.speaker1VoiceURI st.speaker2VoiceURI oc (splitLines st.text) 0 := by
    simp only [readAloud, if_pos hcond]
    exact congrArg (fun X => cancelEvs st.synthSpeaking ++ X)
      (readAloudGo_trace oc st.voices st.speaker1VoiceURI st.speaker2VoiceURI
        (splitLines st.text) 0 _ rfl rfl rfl hres)
  constructor
  · rw [htr]
    refine List.mem_append_right _ ?_
    exact reportError_mem_plannedGo st.voices st.speaker1VoiceURI st.speaker2VoiceURI oc e
      (splitLines st.text) k 0 hres hk (by rwa [Nat.zero_add])
  · rw [htr, utterCount_append, utterCount_cancelEvs,
      utterCount_plannedGo st.voices st.speaker1VoiceURI st.speaker2VoiceURI oc
        (splitLines st.text) 0 hres, Nat.zero_add]

theorem claim3_witness :
    wSt.voices ≠ [] ∧
    (∀ l ∈ splitLines wSt.text,
      ((lineVoiceAndText wSt.voices wSt.speaker1VoiceURI wSt.speaker2VoiceURI l).1).isSome) ∧
    1 < (splitLines wSt.text).length ∧
    (fun j => if j = 1 then some "synthesis-failed" else none) 1 = some "synthesis-failed" ∧
    (Ev.reportError (synthErrorMsg "synthesis-failed") ∈
      (readAloud wSt (fun j => if j = 1 then some "synthesis-failed" else none)).2 ∧
    utterCount (readAloud wSt (fun j => if j = 1 then some "synthesis-failed" else none)).2 =
      (splitLines wSt.text).length) :=
  ⟨by decide, by decide, by decide, by decide,
    claim3_utterance_error_nonfatal wSt (fun j => if j = 1 then some "synthesis-failed" else none)
      1 "synthesis-failed" (by decide) (by decide) (by decide) (by decide)⟩

/-! ## Claim C4: the missing-input guard -/

/-- Concrete counterexample state for claim C4: whitespace-only text (one
space) with a non-empty catalog. -/
def blankSt : AppState :=
  { text := " "
    voices := [⟨"u1", "Google US English", "en-US"⟩]
    speaker1Lang := "en", speaker2Lang := "zh"
    speaker1VoiceURI := some "u1", speaker2VoiceURI := some "u1"
    errorMessage := "", currentLineIndex := none, synthSpeaking := false }

/-- Claim C4 as stated is false: on whitespace-only (but non-empty) text
with a non-empty catalog, `readAloud` submits zero utterances yet clears
the status instead of setting the missing-input status, and `speak` even
proceeds to request capture. -/
theorem claim4_counterexample :
    (readAloud blankSt (fun _ => none)).1.errorMessage ≠ missingInputMsg ∧
    utterCount (readAloud blankSt (fun _ => none)).2 = 0 ∧
    (speak blankSt true (fun _ => none)).1.errorMessage ≠ missingInputMsg := by
  decide

/-- Claim C4, amended: the guard fires exactly on an empty `rawText` string
or an empty catalog (whitespace-only non-empty text passes the guard).  In
those cases both dispatch entry points set the missing-input status and
submit zero utterances. -/
theorem claim4_missing_input (st : AppState) (oc : ℕ → Option String) (g : Bool)
    (h : st.text = "" ∨ st.voices = []) :
    (readAloud st oc).1.errorMessage = missingInputMsg ∧
    utterCount (readAloud st oc).2 = 0 ∧
    (speak st g oc).1.errorMessage = missingInputMsg ∧
    utterCount (speak st g oc).2.1 = 0 := by
  have hcond1 : ¬(st.text ≠ "" ∧ st.voices.length > 0) := by
    rcases h with h | h <;> simp [h]
  have hcond2 : st.text = "" ∨ st.voices.length = 0 := by
    rcases h with h | h
    · exact Or.inl h
    · exact Or.inr (by simp [h])
  refine ⟨?_, ?_, ?_, ?_⟩
  · simp only [readAloud, if_neg hcond1]
  · simp only [readAloud, if_neg hcond1]
    exact utterCount_cancelEvs st.synthSpeaking
  · simp only [speak, if_pos hcond2]
  · simp only [speak, if_pos hcond2]
    exact utterCount_cancelEvs st.synthSpeaking

theorem claim4_witness :
    (("" : String) = "" ∨ ([] : List Voice) = []) ∧
    ((readAloud { blankSt with text := "" } (fun _ => none)).1.errorMessage = missingInputMsg ∧
      utterCount (readAloud { blankSt with text := "" } (fun _ => none)).2 = 0 ∧
      (speak { blankSt with text := "" } true (fun _ => none)).1.errorMessage = missingInputMsg ∧
      utterCount (speak { blankSt with text := "" } true (fun _ => none)).2.1 = 0) :=
  ⟨Or.inl rfl,
    claim4_missing_input { blankSt with text := "" } (fun _ => none) true (Or.inl rfl)⟩

/-! ## Claim C6: capture grant gates recording-mode dispatch -/

/-- Claim C6: in recording mode the capture request is resolved before any
utterance: in every `speak` trace, no utterance submission occurs before
the capture request; and when the grant is declined the capture-failure
status is set, zero utterances are submitted, and the dispatch result is
`captureDenied`. -/
theorem claim6_capture_before_dispatch (st : AppState) (oc : ℕ → Option String) (g : Bool)
    (h1 : st.text ≠ "") (h2 : st.voices ≠ []) :
    ((speak st g oc).2.1.takeWhile (fun e => !(isCaptureReq e))).all
        (fun e => !(isUtter e)) = true ∧
    (speak st false oc).1.errorMessage = captureFailMsg ∧
    utterCount (speak st false oc).2.1 = 0 ∧
    (speak st false oc).2.2 = SpeakResult.captureDenied := by
  have hcond : ¬(st.text = "" ∨ st.voices.length = 0) := by
    push_neg
    refine ⟨h1, ?_⟩
    simpa [List.length_eq_zero] using h2
  refine ⟨?_, ?_, ?_, ?_⟩
  · simp only [speak, if_neg hcond]
    cases g with
    | false =>
      cases hb : st.synthSpeaking <;>
        simp [cancelEvs, List.takeWhile_cons, isCaptureReq, isUtter]
    | true =>
      rw [if_pos rfl]
      split <;>
        (cases hb : st.synthSpeaking <;>
          simp [cancelEvs, List.takeWhile_cons, isCaptureReq, isUtter])
  · simp only [speak, if_neg hcond]
    rw [if_neg (by decide : ¬(false = true))]
  · simp only [speak, if_neg hcond]
    rw [if_neg (by decide : ¬(false = true)), utterCount_append, utterCount_cancelEvs]
    rfl
  · simp only [speak, if_neg hcond]
    rw [if_neg (by decide : ¬(false = true))]

theorem claim6_witness :
    wSt.text ≠ "" ∧ wSt.voices ≠ [] ∧
    (((speak wSt true (fun _ => none)).2.1.takeWhile (fun e => !(isCaptureReq e))).all
        (fun e => !(isUtter e)) = true ∧
      (speak wSt false (fun _ => none)).1.errorMessage = captureFailMsg ∧
      utterCount (speak wSt false (fun _ => none)).2.1 = 0 ∧
      (speak wSt false (fun _ => none)).2.2 = SpeakResult.captureDenied) :=
  ⟨by decide, by decide,
    claim6_capture_before_dispatch wSt (fun _ => none) true (by decide) (by decide)⟩

/-! ## Claim C10: a recording-mode utterance error skips finalization -/

lemma speakLoop_reject (oc : ℕ → Option String) (V : List Voice) (u1 u2 : Option String)
    (e : String) :
    ∀ (k : ℕ) (lines : List String) (i : ℕ) (st : AppState),
      st.voices = V → st.speaker1VoiceURI = u1 → st.speaker2VoiceURI = u2 →
      (∀ l ∈ lines, ((lineVoiceAndText V u1 u2 l).1).isSome) →
      k < lines.length → oc (i + k) = some e → (∀ j, j < k → oc (i + j) = none) →
      (speakLoop oc st lines i).2.2 = LoopExit.rejected ∧
      (speakLoop oc st lines i).1.errorMessage = speakErrMsg ∧
      utterCount (speakLoop oc st lines i).2.1 = k + 1 ∧
      (speakLoop oc st lines i).2.1.all evNotFinalize = true := by
  intro k
  induction k with
  | zero =>
    intro lines i st hv1 hv2 hv3 hres hk he _
    cases lines with
    | nil => simp at hk
    | cons line rest =>
      have hhead := hres line (List.mem_cons_self line rest)
      subst hv1; subst hv2; subst hv3
      rcases hlv : lineVoiceAndText st.voices st.speaker1VoiceURI st.speaker2VoiceURI line with
        ⟨ov, t⟩
      cases ov with
      | none => rw [hlv] at hhead; simp at hhead
      | some v =>
        rw [Nat.add_zero] at he
        simp [speakLoop, hlv, he, utterCount, isUtter, evNotFinalize]
  | succ k' ih =>
    intro lines i st hv1 hv2 hv3 hres hk he hpre
    cases lines with
    | nil => simp at hk
    | cons line rest =>
      have hhead := hres line (List.mem_cons_self line rest)
      have htail : ∀ l ∈ rest, ((lineVoiceAndText V u1 u2 l).1).isSome :=
        fun l hl => hres l (List.mem_cons_of_mem line hl)
      subst hv1; subst hv2; subst hv3
      rcases hlv : lineVoiceAndText st.voices st.speaker1VoiceURI st.speaker2VoiceURI line with
        ⟨ov, t⟩
      cases ov with
      | none => rw [hlv] at hhead; simp at hhead
      | some v =>
        have h0 : oc i = none := by
          have := hpre 0 (Nat.succ_pos k')
          rwa [Nat.add_zero] at this
        have he' : oc ((i + 1) + k') = some e := by
          rw [show (i + 1) + k' = i + (k' + 1) from by omega]; exact he
        have hk' : k' < rest.length := by
          simp only [List.length_cons] at hk; omega
        have hpre' : ∀ j, j < k' → oc ((i + 1) + j) = none := by
          intro j hj
          rw [show (i + 1) + j = i + (j + 1) from by omega]
          exact hpre (j + 1) (by omega)
        obtain ⟨ha, hb, hc, hd⟩ := ih rest (i + 1) st rfl rfl rfl htail hk' he' hpre'
        simp only [speakLoop, hlv, h0]
        refine ⟨ha, hb, ?_, ?_⟩
        · simp only [utterCount, List.filter_cons, isUtter] at hc ⊢
          simp only [if_pos]
          rw [List.length_cons, hc]
        · simp only [List.all_cons, evNotFinalize, Bool.true_and]
          exact hd

/-- Claim C10: in recording mode, an utterance-level error at some line
rejects that line's promise and terminates the dispatch there: exactly the
lines up to and including the failing one were submitted, the result is the
rejected async function (`aborted`), and the recorder's `stop` and the file
download never occur (so the capture graph is not disconnected, no waveform
buffer is produced, and no download is triggered). -/
theorem claim10_record_error_skips_stop (st : AppState) (oc : ℕ → Option String)
    (k : ℕ) (e : String) (hv : st.voices ≠ [])
    (hres : ∀ l ∈ splitLines st.text,
      ((lineVoiceAndText st.voices st.speaker1VoiceURI st.speaker2VoiceURI l).1).isSome)
    (hk : k < (splitLines st.text).length) (he : oc k = some e)
    (hpre : ∀ j, j < k → oc j = none) :
    (speak st true oc).2.2 = SpeakResult.aborted ∧
    (speak st true oc).1.errorMessage = speakErrMsg ∧
    utterCount (speak st true oc).2.1 = k + 1 ∧
    (speak st true oc).2.1.all evNotFinalize = true := by
  have hplan : splitLines st.text ≠ [] := by
    intro h; rw [h] at hk; simp at hk
  have htext : st.text ≠ "" := by
    intro h; exact hplan (by rw [h]; rfl)
  have hcond : ¬(st.text = "" ∨ st.voices.length = 0) := by
    push_neg
    refine ⟨htext, ?_⟩
    simpa [List.length_eq_zero] using hv
  obtain ⟨ha, hb, hc, hd⟩ :=
    speakLoop_reject oc st.voices st.speaker1VoiceURI st.speaker2VoiceURI e k
      (splitLines st.text) 0 { { st with errorMessage := sharePromptMsg } with
        errorMessage := recordingMsg }
      rfl rfl rfl hres hk (by rwa [Nat.zero_add]) (fun j hj => by
        have := hpre j hj; rwa [Nat.zero_add])
  simp only [speak, if_neg hcond, if_pos]
  split
  · next heq => rw [heq] at ha; cases ha
  · next heq => rw [heq] at ha; cases ha
  · refine ⟨rfl, hb, ?_, ?_⟩
    · rw [utterCount_append, utterCount_cancelEvs, Nat.zero_add]
      simp only [utterCount, List.filter_cons, isUtter] at hc ⊢
      exact hc
    · have hpre2 : (cancelEvs st.synthSpeaking).all evNotFinalize = true := by
        cases hbb : st.synthSpeaking <;> simp [cancelEvs, evNotFinalize]
      simp [List.all_append, List.all_cons, hpre2, evNotFinalize, hd]

theorem claim10_witness :
    wSt.voices ≠ [] ∧
    (∀ l ∈ splitLines wSt.text,
      ((lineVoiceAndText wSt.voices wSt.speaker1VoiceURI wSt.speaker2VoiceURI l).1).isSome) ∧
    1 < (splitLines wSt.text).length ∧
    (fun j => if j = 1 then some "boom" else none) 1 = some "boom" ∧
    (∀ j, j < 1 → (fun j => if j = 1 then some "boom" else none) j = none) ∧
    ((speak wSt true (fun j => if j = 1 then some "boom" else none)).2.2 = SpeakResult.aborted ∧
      (speak wSt true (fun j => if j = 1 then some "boom" else none)).1.errorMessage = speakErrMsg ∧
      utterCount (speak wSt true (fun j => if j = 1 then some "boom" else none)).2.1 = 1 + 1 ∧
      (speak wSt true (fun j => if j = 1 then some "boom" else none)).2.1.all evNotFinalize
        = true) :=
  ⟨by decide, by decide, by decide, by decide, by decide,
    claim10_record_error_skips_stop wSt (fun j => if j = 1 then some "boom" else none)
      1 "boom" (by decide) (by decide) (by decide) (by decide) (by decide)⟩

/-! ## Claim C9: idempotence of catalog population -/

lemma populate_of_nonempty (env : Env) (st : AppState) (h : st.voices ≠ []) :
    populateVoiceList env st = st := by
  simp only [populateVoiceList]
  rw [if_pos (List.length_pos.mpr h)]

/-- Claim C9: once the catalog is non-empty, a second `populateVoiceList`
call with the same host environment returns immediately and changes
nothing: catalog and both speaker slot selections (indeed, the whole
state) are exactly as after the first call. -/
theorem claim9_populate_idempotent (env : Env) (st : AppState)
    (h : (populateVoiceList env st).voices ≠ []) :
    populateVoiceList env (populateVoiceList env st) = populateVoiceList env st :=
  populate_of_nonempty env (populateVoiceList env st) h

/-- Concrete witness environment: a Chrome user agent with two Google
voices and one native voice. -/
def wEnv : Env :=
  ⟨[⟨"u1", "Google UK English Emma", "en-GB"⟩, ⟨"u3", "Native", "fr-FR"⟩,
    ⟨"u2", "Google 國語", "zh-TW"⟩], "Mozilla/5.0 Chrome/120"⟩

/-- Concrete pre-population state: empty catalog, no selections. -/
def emptySt : AppState :=
  { text := "", voices := [], speaker1Lang := "en", speaker2Lang := "zh"
    speaker1VoiceURI := none, speaker2VoiceURI := none
    errorMessage := "", currentLineIndex := none, synthSpeaking := false }

theorem claim9_witness :
    (populateVoiceList wEnv emptySt).voices ≠ [] ∧
    populateVoiceList wEnv (populateVoiceList wEnv emptySt) =
      populateVoiceList wEnv emptySt :=
  ⟨by decide, claim9_populate_idempotent wEnv emptySt (by decide)⟩

/-! ## Claim C5: catalog non-empty or error reported -/

/-- The catalog assigned by the non-error branch of `populateVoiceList`:
the vendor-specific filter (and, on Edge, sort) of the host list. -/
def keptVoices (env : Env) : List Voice :=
  let ua := lowerStr env.userAgent
  let isEdge := strIncludes ua "edg"
  let isChrome := !isEdge && strIncludes ua "chrome"
  if isChrome then env.availableVoices.filter chromeKeep
  else if isEdge then edgeCatalog env.availableVoices
  else env.availableVoices.filter genericKeep

lemma populate_voices_eq (env : Env) (st : AppState) (hempty : st.voices = [])
    (hav : env.availableVoices ≠ []) :
    (populateVoiceList env st).voices = keptVoices env := by
  simp only [populateVoiceList, keptVoices]
  rw [if_neg (by simp [hempty]), if_pos (List.length_pos.mpr hav)]
  split
  · rfl
  · split <;> rfl

lemma populate_unsupported (env : Env) (st : AppState) (hempty : st.voices = [])
    (hav : env.availableVoices = []) :
    (populateVoiceList env st).errorMessage = unsupportedMsg := by
  simp only [populateVoiceList]
  rw [if_neg (by simp [hempty]), if_neg (by simp [hav])]

/-- Concrete counterexample for claim C5: a Chrome environment whose only
host voice is a non-Google voice.  The host reports a voice, so the
unsupported-environment error is not set, yet the vendor filter removes
everything and the catalog ends up empty with no error reported. -/
def c5Env : Env := ⟨[⟨"u3", "Native Franch Voice", "fr-FR"⟩], "Mozilla/5.0 Chrome/120"⟩

theorem claim5_counterexample :
    (populateVoiceList c5Env emptySt).voices = [] ∧
    (populateVoiceList c5Env emptySt).errorMessage ≠ unsupportedMsg ∧
    c5Env.availableVoices ≠ [] := by
  decide

/-- Claim C5, amended: after a terminating `populateVoiceList` run the
catalog is non-empty or the unsupported-environment error is set, provided
the host list is empty or the vendor filter keeps at least one voice.
(When a non-empty host list is filtered down to nothing, the code leaves an
empty catalog with no error reported.) -/
theorem claim5_nonempty_or_error (env : Env) (st : AppState)
    (h : env.availableVoices = [] ∨ keptVoices env ≠ []) :
    (populateVoiceList env st).voices ≠ [] ∨
    (populateVoiceList env st).errorMessage = unsupportedMsg := by
  by_cases hempty : st.voices = []
  · rcases h with hav | hkept
    · exact Or.inr (populate_unsupported env st hempty hav)
    · by_cases hav : env.availableVoices = []
      · exact Or.inr (populate_unsupported env st hempty hav)
      · exact Or.inl (by rw [populate_voices_eq env st hempty hav]; exact hkept)
  · left
    rw [populate_of_nonempty env st hempty]
    exact hempty

theorem claim5_witness :
    (wEnv.availableVoices = [] ∨ keptVoices wEnv ≠ []) ∧
    ((populateVoiceList wEnv emptySt).voices ≠ [] ∨
      (populateVoiceList wEnv emptySt).errorMessage = unsupportedMsg) :=
  ⟨Or.inr (by decide), claim5_nonempty_or_error wEnv emptySt (Or.inr (by decide))⟩

/-! ## Claim C7: the Edge-branch catalog -/

lemma orderedInsert_of_head {α : Type} (r : α → α → Prop) [DecidableRel r] (v : α)
    (xs : List α) (h : ∀ b, xs.head? = some b → r v b) :
    List.orderedInsert r v xs = v :: xs := by
  cases xs with
  | nil => rfl
  | cons b t => simp [List.orderedInsert, if_pos (h b rfl)]

lemma orderedInsert_append {α : Type} (r : α → α → Prop) [DecidableRel r] (v : α)
    (A B : List α) (h : ∀ b ∈ A, ¬ r v b) :
    List.orderedInsert r v (A ++ B) = A ++ List.orderedInsert r v B := by
  induction A with
  | nil => rfl
  | cons a t ih =>
    simp only [List.cons_append, List.orderedInsert,
      if_neg (h a (List.mem_cons_self a t))]
    exact congrArg (fun X => a :: X) (ih (fun b hb => h b (List.mem_cons_of_mem a hb)))

lemma keyBuckets_nil (k : Voice → ℕ) (rs : List ℕ) : keyBuckets k rs [] = [] := by
  induction rs with
  | nil => rfl
  | cons rk rs' ih => simp only [keyBuckets, List.map_cons, List.flatten_cons,
      List.filter_nil, List.nil_append] at ih ⊢; exact ih

lemma keyBuckets_cons (k : Voice → ℕ) (rk : ℕ) (rs : List ℕ) (l : List Voice) :
    keyBuckets k (rk :: rs) l =
      l.filter (fun v => decide (k v = rk)) ++ keyBuckets k rs l := by
  simp [keyBuckets]

lemma mem_keyBuckets_key (k : Voice → ℕ) (rs : List ℕ) (l : List Voice) (b : Voice)
    (hb : b ∈ keyBuckets k rs l) : k b ∈ rs := by
  induction rs with
  | nil => simp [keyBuckets] at hb
  | cons rk rs' ih =>
    rw [keyBuckets_cons] at hb
    rcases List.mem_append.mp hb with h | h
    · have := (List.mem_filter.mp h).2
      simp at this
      simp [this]
    · exact List.mem_cons_of_mem rk (ih h)

lemma keyBuckets_cons_of_not_mem (k : Voice → ℕ) (v : Voice) (rs : List ℕ) (l : List Voice)
    (h : ∀ rk ∈ rs, k v ≠ rk) :
    keyBuckets k rs (v :: l) = keyBuckets k rs l := by
  induction rs with
  | nil => rfl
  | cons rk rs' ih =>
    rw [keyBuckets_cons, keyBuckets_cons]
    have hfil : (v :: l).filter (fun x => decide (k x = rk)) =
        l.filter (fun x => decide (k x = rk)) := by
      simp [List.filter_cons, h rk (List.mem_cons_self rk rs')]
    rw [hfil, ih (fun r hr => h r (List.mem_cons_of_mem rk hr))]

lemma orderedInsert_keyBuckets (k : Voice → ℕ) (v : Voice) (rs : List ℕ) (l : List Voice)
    (hsort : rs.Pairwise (· < ·)) (hmem : k v ∈ rs) :
    List.orderedInsert (fun a b => k a ≤ k b) v (keyBuckets k rs l) =
      keyBuckets k rs (v :: l) := by
  induction rs with
  | nil => cases hmem
  | cons rk rs' ih =>
    rw [keyBuckets_cons, keyBuckets_cons]
    by_cases hvk : k v = rk
    · have hfil : (v :: l).filter (fun x => decide (k x = rk)) =
          v :: l.filter (fun x => decide (k x = rk)) := by
        simp [List.filter_cons, hvk]
      have hnot : keyBuckets k rs' (v :: l) = keyBuckets k rs' l := by
        apply keyBuckets_cons_of_not_mem
        intro r hr
        have : rk < r := (List.pairwise_cons.mp hsort).1 r hr
        omega
      rw [hfil, hnot, List.cons_append]
      apply orderedInsert_of_head
      intro b hb
      have hbmem : b ∈ l.filter (fun x => decide (k x = rk)) ++ keyBuckets k rs' l :=
        List.mem_of_mem_head? (Option.mem_def.mpr hb)
      rcases List.mem_append.mp hbmem with h | h
      · have := (List.mem_filter.mp h).2
        simp at this
        omega
      · have hkb := mem_keyBuckets_key k rs' l b h
        have : rk < k b := (List.pairwise_cons.mp hsort).1 (k b) hkb
        omega
    · have hmem' : k v ∈ rs' := by
        rcases List.mem_cons.mp hmem with h | h
        · exact absurd h hvk
        · exact h
      have hlt : rk < k v := (List.pairwise_cons.mp hsort).1 (k v) hmem'
      have hfil : (v :: l).filter (fun x => decide (k x = rk)) =
          l.filter (fun x => decide (k x = rk)) := by
        simp [List.filter_cons, hvk]
      rw [hfil]
      rw [orderedInsert_append _ v _ _ (fun b hb => by
        have := (List.mem_filter.mp hb).2
        simp at this
        omega)]
      rw [ih (List.pairwise_cons.mp hsort).2 hmem']

lemma insertionSort_keyBuckets (k : Voice → ℕ) (rs : List ℕ)
    (hsort : rs.Pairwise (· < ·)) :
    ∀ l : List Voice, (∀ x ∈ l, k x ∈ rs) →
      List.insertionSort (fun a b => k a ≤ k b) l = keyBuckets k rs l := by
  intro l
  induction l with
  | nil =>
    intro _
    rw [keyBuckets_nil]
    rfl
  | cons v t ih =>
    intro hall
    have : List.insertionSort (fun a b => k a ≤ k b) (v :: t) =
        List.orderedInsert (fun a b => k a ≤ k b) v
          (List.insertionSort (fun a b => k a ≤ k b) t) := rfl
    rw [this, ih (fun x hx => hall x (List.mem_cons_of_mem v hx))]
    exact orderedInsert_keyBuckets k v rs t hsort (hall v (List.mem_cons_self v t))

lemma langOrder_mem_range (lang : String) : langOrder lang ∈ List.range 9 := by
  rw [List.mem_range]
  unfold langOrder
  split_ifs <;> norm_num

/-- Claim C7: on an Edge user agent with a non-empty host list and an empty
pre-existing catalog, `populateVoiceList` produces exactly the
Microsoft/zh-ja-en₅ filtered sublist stably sorted by the `langOrder` rank:
the rank-0 voices in original relative order, then rank 1, …, then rank 8. -/
theorem claim7_edge_catalog (env : Env) (st : AppState)
    (hempty : st.voices = [])
    (hedge : strIncludes (lowerStr env.userAgent) "edg" = true)
    (hav : env.availableVoices ≠ []) :
    (populateVoiceList env st).voices =
      keyBuckets (fun v => langOrder v.lang) (List.range 9)
        (env.availableVoices.filter edgeKeep) := by
  rw [populate_voices_eq env st hempty hav]
  simp only [keptVoices, hedge]
  rw [if_pos trivial]
  exact insertionSort_keyBuckets (fun v => langOrder v.lang) (List.range 9)
    (by decide) (env.availableVoices.filter edgeKeep)
    (fun x _ => langOrder_mem_range x.lang)

/-- Concrete witness environment for claim C7: an Edge user agent with
Microsoft voices in several languages plus voices the filter must drop. -/
def wEdgeEnv : Env :=
  ⟨[⟨"m1", "Microsoft Sonia", "en-GB"⟩, ⟨"m2", "Microsoft Yaoyao", "zh-CN"⟩,
    ⟨"m3", "Microsoft Nanami", "ja-JP"⟩, ⟨"g1", "Google US English", "en-US"⟩,
    ⟨"m4", "Microsoft Aria", "en-US"⟩, ⟨"m5", "Microsoft WanLung", "zh-HK"⟩],
    "Mozilla/5.0 Edg/120"⟩

theorem claim7_witness :
    emptySt.voices = [] ∧
    strIncludes (lowerStr wEdgeEnv.userAgent) "edg" = true ∧
    wEdgeEnv.availableVoices ≠ [] ∧
    (populateVoiceList wEdgeEnv emptySt).voices =
      keyBuckets (fun v => langOrder v.lang) (List.range 9)
        (wEdgeEnv.availableVoices.filter edgeKeep) :=
  ⟨by decide, by decide, by decide,
    claim7_edge_catalog wEdgeEnv emptySt (by decide) (by decide) (by decide)⟩

/-! ## Claim C8: the PCM16 sample conversion -/

lemma ratTrunc_of_nonneg (q : ℚ) (h : 0 ≤ q) : ratTrunc q = ⌊q⌋ := by
  have hn : 0 ≤ q.num := Rat.num_nonneg.mpr h
  rw [ratTrunc, if_neg (by omega), Rat.floor_def]

lemma ratTrunc_of_neg (q : ℚ) (h : q < 0) : ratTrunc q = ⌈q⌉ := by
  have hn : q.num < 0 := Rat.num_neg.mpr h
  rw [ratTrunc, if_pos hn]
  have h1 : ⌊-q⌋ = -⌈q⌉ := Int.floor_neg
  have h2 : ⌊-q⌋ = (-q).num / ((-q).den : ℤ) := Rat.floor_def
  rw [Rat.neg_num, Rat.neg_den] at h2
  omega

lemma clampSample_lb (q : ℚ) : -1 ≤ clampSample q := le_max_left _ _

lemma clampSample_ub (q : ℚ) : clampSample q ≤ 1 :=
  max_le (by norm_num) (min_le_left _ _)

lemma clampSample_idem (q : ℚ) : clampSample (clampSample q) = clampSample q := by
  have h2 : min 1 (clampSample q) = clampSample q := min_eq_right (clampSample_ub q)
  show max (-1) (min 1 (clampSample q)) = clampSample q
  rw [h2, max_eq_right (clampSample_lb q)]

lemma clampSample_of_one_le (q : ℚ) (h : 1 ≤ q) : clampSample q = 1 := by
  show max (-1) (min 1 q) = 1
  rw [min_eq_left h, max_eq_right (by norm_num : (-1 : ℚ) ≤ 1)]

lemma clampSample_of_le_neg_one (q : ℚ) (h : q ≤ -1) : clampSample q = -1 := by
  show max (-1) (min 1 q) = -1
  rw [min_eq_right (le_trans h (by norm_num)), max_eq_left h]

lemma floor_q_32767 : (⌊(32767 : ℚ)⌋ : ℤ) = 32767 := by norm_num

lemma ceil_q_neg_32768 : (⌈(-32768 : ℚ)⌉ : ℤ) = -32768 := by
  rw [show (-32768 : ℚ) = ((-32768 : ℤ) : ℚ) by norm_num]
  exact Int.ceil_intCast _

lemma sampleToPcm16_range (q : ℚ) :
    -32768 ≤ sampleToPcm16 q ∧ sampleToPcm16 q ≤ 32767 := by
  have h1 := clampSample_lb q
  have h2 := clampSample_ub q
  rw [sampleToPcm16, scaleSample]
  split
  · next hs =>
    have hlt : clampSample q * 32768 < 0 := mul_neg_of_neg_of_pos hs (by norm_num)
    rw [ratTrunc_of_neg _ hlt]
    constructor
    · have hle : (-32768 : ℚ) ≤ clampSample q * 32768 := by nlinarith
      calc (-32768 : ℤ) = ⌈(-32768 : ℚ)⌉ := ceil_q_neg_32768.symm
        _ ≤ ⌈clampSample q * 32768⌉ := Int.ceil_le_ceil hle
    · have : ⌈clampSample q * 32768⌉ ≤ ⌈(0 : ℚ)⌉ := Int.ceil_le_ceil (le_of_lt hlt)
      simp at this
      omega
  · next hs =>
    push_neg at hs
    have h0 : (0 : ℚ) ≤ clampSample q * 32767 := mul_nonneg hs (by norm_num)
    rw [ratTrunc_of_nonneg _ h0]
    constructor
    · have : (0 : ℤ) ≤ ⌊clampSample q * 32767⌋ := Int.floor_nonneg.mpr h0
      omega
    · have hle : clampSample q * 32767 ≤ 32767 := by nlinarith
      calc ⌊clampSample q * 32767⌋ ≤ ⌊(32767 : ℚ)⌋ := Int.floor_le_floor hle
        _ = 32767 := floor_q_32767

lemma int16_roundtrip (v : ℤ) (h1 : -32768 ≤ v) (h2 : v ≤ 32767) :
    int16OfStore (int16Store v) = v := by
  have h3 : (0 : ℤ) ≤ v % 65536 := Int.emod_nonneg v (by norm_num)
  have h4 : v % 65536 < 65536 := Int.emod_lt_of_pos v (by norm_num)
  have h5 : ((v % 65536).toNat : ℤ) = v % 65536 := Int.toNat_of_nonneg h3
  rw [int16OfStore, int16Store]
  split
  · next hlt =>
    have : ((v % 65536).toNat : ℤ) < 32768 := by exact_mod_cast hlt
    omega
  · next hge =>
    have : ¬(((v % 65536).toNat : ℤ) < 32768) := by
      intro hc
      exact hge (by exact_mod_cast hc)
    omega

lemma sampleToPcm16_neg_one : sampleToPcm16 (-1) = -32768 := by
  rw [sampleToPcm16, clampSample_of_le_neg_one (-1) (by norm_num), scaleSample,
    if_pos (by norm_num : (-1 : ℚ) < 0),
    show ((-1 : ℚ) * 32768) = -32768 by norm_num,
    ratTrunc_of_neg _ (by norm_num), ceil_q_neg_32768]

lemma sampleToPcm16_zero : sampleToPcm16 0 = 0 := by
  have hc : clampSample 0 = 0 := by
    show max (-1) (min 1 (0 : ℚ)) = 0
    rw [min_eq_right (by norm_num : (0 : ℚ) ≤ 1),
      max_eq_right (by norm_num : (-1 : ℚ) ≤ 0)]
  rw [sampleToPcm16, hc, scaleSample, if_neg (by norm_num : ¬((0 : ℚ) < 0)),
    show ((0 : ℚ) * 32767) = 0 by norm_num, ratTrunc_of_nonneg _ le_rfl]
  exact Int.floor_zero

lemma sampleToPcm16_one : sampleToPcm16 1 = 32767 := by
  rw [sampleToPcm16, clampSample_of_one_le 1 le_rfl, scaleSample,
    if_neg (by norm_num : ¬((1 : ℚ) < 0)),
    show ((1 : ℚ) * 32767) = 32767 by norm_num,
    ratTrunc_of_nonneg _ (by norm_num), floor_q_32767]

/-- Claim C8: the encoder's float-to-PCM16 conversion clamps to [-1, 1]
first (so it only depends on the clamped value, and saturate-equals-endpoint
holds beyond ±1), stays inside the signed 16-bit range (so the stored
little-endian 16-bit pattern reads back as exactly the computed value), and
maps -1.0 to -32768, 0.0 to 0, 1.0 to 32767, and values beyond ±1 (here ±2)
to the endpoint results. -/
theorem claim8_pcm16_conversion (q : ℚ) :
    sampleToPcm16 q = sampleToPcm16 (clampSample q) ∧
    (-32768 ≤ sampleToPcm16 q ∧ sampleToPcm16 q ≤ 32767) ∧
    int16OfStore (int16Store (sampleToPcm16 q)) = sampleToPcm16 q ∧
    sampleToPcm16 (-1) = -32768 ∧ sampleToPcm16 0 = 0 ∧ sampleToPcm16 1 = 32767 ∧
    sampleToPcm16 2 = 32767 ∧ sampleToPcm16 (-2) = -32768 := by
  obtain ⟨hlo, hhi⟩ := sampleToPcm16_range q
  refine ⟨?_, ⟨hlo, hhi⟩, int16_roundtrip _ hlo hhi, sampleToPcm16_neg_one,
    sampleToPcm16_zero, sampleToPcm16_one, ?_, ?_⟩
  · rw [sampleToPcm16, sampleToPcm16, clampSample_idem]
  · rw [show sampleToPcm16 2 = sampleToPcm16 1 by
      rw [sampleToPcm16, sampleToPcm16, clampSample_of_one_le 2 (by norm_num),
        clampSample_of_one_le 1 le_rfl]]
    exact sampleToPcm16_one
  · rw [show sampleToPcm16 (-2) = sampleToPcm16 (-1) by
      rw [sampleToPcm16, sampleToPcm16, clampSample_of_le_neg_one (-2) (by norm_num),
        clampSample_of_le_neg_one (-1) le_rfl]]
    exact sampleToPcm16_neg_one

/-! ## Claim C2: the WAV container layout -/

lemma strBytes_RIFF : strBytes "RIFF" = [82, 73, 70, 70] := rfl

lemma strBytes_WAVE : strBytes "WAVE" = [87, 65, 86, 69] := rfl

lemma strBytes_fmt : strBytes "fmt " = [102, 109, 116, 32] := rfl

lemma strBytes_data : strBytes "data" = [100, 97, 116, 97] := rfl

/-- The encoder output written out as one byte spine. -/
lemma stopWavBytes_cons (blocks : List (List ℚ)) (R : ℕ) :
    stopWavBytes blocks R =
      82 :: 73 :: 70 :: 70 ::
      (36 + (pcm16Data blocks).length) % 256 ::
      (36 + (pcm16Data blocks).length) / 256 % 256 ::
      (36 + (pcm16Data blocks).length) / 65536 % 256 ::
      (36 + (pcm16Data blocks).length) / 16777216 % 256 ::
      87 :: 65 :: 86 :: 69 :: 102 :: 109 :: 116 :: 32 ::
      16 :: 0 :: 0 :: 0 ::
      1 :: 0 :: 1 :: 0 ::
      R % 256 :: R / 256 % 256 :: R / 65536 % 256 :: R / 16777216 % 256 ::
      (R * 2) % 256 :: (R * 2) / 256 % 256 ::
      (R * 2) / 65536 % 256 :: (R * 2) / 16777216 % 256 ::
      2 :: 0 :: 16 :: 0 ::
      100 :: 97 :: 116 :: 97 ::
      (pcm16Data blocks).length % 256 ::
      (pcm16Data blocks).length / 256 % 256 ::
      (pcm16Data blocks).length / 65536 % 256 ::
      (pcm16Data blocks).length / 16777216 % 256 ::
      pcm16Data blocks := by
  simp [stopWavBytes, wavHeader, u32le, u16le,
    strBytes_RIFF, strBytes_WAVE, strBytes_fmt, strBytes_data]

lemma stopWav_len (blocks : List (List ℚ)) (R : ℕ) :
    (stopWavBytes blocks R).length = 44 + (pcm16Data blocks).length := by
  rw [stopWavBytes_cons]
  simp only [List.length_cons]
  omega

lemma stopWav_riffSize (blocks : List (List ℚ)) (R : ℕ) :
    readU32 (stopWavBytes blocks R) 4 =
      (36 + (pcm16Data blocks).length) % 4294967296 := by
  rw [stopWavBytes_cons]
  show (36 + (pcm16Data blocks).length) % 256 +
      256 * ((36 + (pcm16Data blocks).length) / 256 % 256 +
        256 * ((36 + (pcm16Data blocks).length) / 65536 % 256 +
          256 * ((36 + (pcm16Data blocks).length) / 16777216 % 256 + 256 * 0))) =
    (36 + (pcm16Data blocks).length) % 4294967296
  omega

lemma stopWav_sampleRate (blocks : List (List ℚ)) (R : ℕ) :
    readU32 (stopWavBytes blocks R) 24 = R % 4294967296 := by
  rw [stopWavBytes_cons]
  show R % 256 + 256 * (R / 256 % 256 + 256 * (R / 65536 % 256 +
      256 * (R / 16777216 % 256 + 256 * 0))) = R % 4294967296
  omega

lemma stopWav_byteRate (blocks : List (List ℚ)) (R : ℕ) :
    readU32 (stopWavBytes blocks R) 28 = (R * 2) % 4294967296 := by
  rw [stopWavBytes_cons]
  show (R * 2) % 256 + 256 * ((R * 2) / 256 % 256 + 256 * ((R * 2) / 65536 % 256 +
      256 * ((R * 2) / 16777216 % 256 + 256 * 0))) = (R * 2) % 4294967296
  omega

lemma stopWav_dataSize (blocks : List (List ℚ)) (R : ℕ) :
    readU32 (stopWavBytes blocks R) 40 =
      (pcm16Data blocks).length % 4294967296 := by
  rw [stopWavBytes_cons]
  show (pcm16Data blocks).length % 256 + 256 * ((pcm16Data blocks).length / 256 % 256 +
      256 * ((pcm16Data blocks).length / 65536 % 256 +
        256 * ((pcm16Data blocks).length / 16777216 % 256 + 256 * 0))) =
    (pcm16Data blocks).length % 4294967296
  omega

lemma stopWav_fmtCode (blocks : List (List ℚ)) (R : ℕ) :
    readU16 (stopWavBytes blocks R) 20 = 1 := by
  rw [stopWavBytes_cons]; rfl

lemma stopWav_channels (blocks : List (List ℚ)) (R : ℕ) :
    readU16 (stopWavBytes blocks R) 22 = 1 := by
  rw [stopWavBytes_cons]; rfl

lemma stopWav_blockAlign (blocks : List (List ℚ)) (R : ℕ) :
    readU16 (stopWavBytes blocks R) 32 = 2 := by
  rw [stopWavBytes_cons]; rfl

lemma stopWav_bits (blocks : List (List ℚ)) (R : ℕ) :
    readU16 (stopWavBytes blocks R) 34 = 16 := by
  rw [stopWavBytes_cons]; rfl

lemma stopWav_payload (blocks : List (List ℚ)) (R : ℕ) :
    (stopWavBytes blocks R).drop 44 = pcm16Data blocks := by
  rw [stopWavBytes_cons]; rfl

lemma length_sampleChunk (b : List ℚ) : (b.flatMap sampleBytes).length = 2 * b.length := by
  induction b with
  | nil => rfl
  | cons s t ih =>
    simp only [List.flatMap_cons, List.length_append, List.length_cons, ih]
    simp [sampleBytes, u16le]
    omega

lemma length_pcm16Data (blocks : List (List ℚ)) :
    (pcm16Data blocks).length = 2 * totalSamples blocks := by
  induction blocks with
  | nil => rfl
  | cons b t ih =>
    have h : pcm16Data (b :: t) = b.flatMap sampleBytes ++ pcm16Data t := by
      simp [pcm16Data, List.flatMap_cons]
    rw [h, List.length_append, length_sampleChunk, ih]
    simp only [totalSamples, List.map_cons, List.sum_cons]
    omega

/-- Concrete counterexample input for claim C2: one block of 2^31 silent
samples.  The declared RIFF chunk size would be 36 + 2^32, which the
32-bit `setUint32` header field stores as 36. -/
def hugeBlocks : List (List ℚ) := [List.replicate 2147483648 0]

/-- Claim C2 as stated (for every list of sample blocks) is false: at 2^31
samples the size fields wrap modulo 2^32, so the RIFF chunk-size field no
longer equals 36 + 2N. -/
theorem claim2_counterexample :
    readU32 (stopWavBytes hugeBlocks 48000) 4 ≠ 36 + 2 * totalSamples hugeBlocks := by
  have h1 : totalSamples hugeBlocks = 2147483648 := by
    show totalSamples [List.replicate 2147483648 0] = 2147483648
    unfold totalSamples
    rw [List.map_cons, List.map_nil, List.length_replicate, List.sum_cons, List.sum_nil,
      Nat.add_zero]
  have h2 : (pcm16Data hugeBlocks).length = 4294967296 := by
    rw [length_pcm16Data, h1]
  rw [stopWav_riffSize, h2, h1]
  norm_num

/-- Claim C2, amended: provided the 32-bit size fields do not overflow
(36 + 2N < 2^32 and 2R < 2^32), the encoder emits exactly 44 + 2N bytes
with RIFF chunk size 36 + 2N, data chunk size 2N, sample-rate field R, byte
rate 2R, block align 2, bits 16, PCM format code 1, mono channel count 1,
all little-endian, followed by the 2N PCM16 payload bytes. -/
theorem claim2_wav_layout (blocks : List (List ℚ)) (R : ℕ)
    (hN : 36 + 2 * totalSamples blocks < 4294967296)
    (hR : 2 * R < 4294967296) :
    (stopWavBytes blocks R).length = 44 + 2 * totalSamples blocks ∧
    readU32 (stopWavBytes blocks R) 4 = 36 + 2 * totalSamples blocks ∧
    readU32 (stopWavBytes blocks R) 40 = 2 * totalSamples blocks ∧
    readU32 (stopWavBytes blocks R) 24 = R ∧
    readU32 (stopWavBytes blocks R) 28 = 2 * R ∧
    readU16 (stopWavBytes blocks R) 20 = 1 ∧
    readU16 (stopWavBytes blocks R) 22 = 1 ∧
    readU16 (stopWavBytes blocks R) 32 = 2 ∧
    readU16 (stopWavBytes blocks R) 34 = 16 ∧
    (stopWavBytes blocks R).drop 44 = pcm16Data blocks ∧
    (pcm16Data blocks).length = 2 * totalSamples blocks := by
  have hd := length_pcm16Data blocks
  refine ⟨?_, ?_, ?_, ?_, ?_, stopWav_fmtCode blocks R, stopWav_channels blocks R,
    stopWav_blockAlign blocks R, stopWav_bits blocks R, stopWav_payload blocks R, hd⟩
  · rw [stopWav_len, hd]
  · rw [stopWav_riffSize, hd, Nat.mod_eq_of_lt hN]
  · rw [stopWav_dataSize, hd, Nat.mod_eq_of_lt (by omega)]
  · rw [stopWav_sampleRate, Nat.mod_eq_of_lt (by omega)]
  · rw [stopWav_byteRate, Nat.mod_eq_of_lt (by omega)]
    omega

/-- Concrete witness input for claim C2: three samples in two blocks. -/
def wBlocks : List (List ℚ) := [[1, 0], [-1]]

theorem claim2_witness :
    36 + 2 * totalSamples wBlocks < 4294967296 ∧
    2 * 48000 < 4294967296 ∧
    ((stopWavBytes wBlocks 48000).length = 44 + 2 * totalSamples wBlocks ∧
      readU32 (stopWavBytes wBlocks 48000) 4 = 36 + 2 * totalSamples wBlocks ∧
      readU32 (stopWavBytes wBlocks 48000) 40 = 2 * totalSamples wBlocks ∧
      readU32 (stopWavBytes wBlocks 48000) 24 = 48000 ∧
      readU32 (stopWavBytes wBlocks 48000) 28 = 2 * 48000 ∧
      readU16 (stopWavBytes wBlocks 48000) 20 = 1 ∧
      readU16 (stopWavBytes wBlocks 48000) 22 = 1 ∧
      readU16 (stopWavBytes wBlocks 48000) 32 = 2 ∧
      readU16 (stopWavBytes wBlocks 48000) 34 = 16 ∧
      (stopWavBytes wBlocks 48000).drop 44 = pcm16Data wBlocks ∧
      (pcm16Data wBlocks).length = 2 * totalSamples wBlocks) :=
  ⟨by decide, by decide, claim2_wav_layout wBlocks 48000 (by decide) (by decide)⟩

end TTS
